import Mathlib

attribute [local semireducible] Rat.mul Rat.inv Rat.add Rat.sub Rat.ofScientific

/-!
Verification model of the size-targeting compression engine in
src/src/utils/imageProcessor.ts (class ImageProcessor).

Shallow embedding conventions:

* A browser File / Blob is modelled by its observable fields: name, MIME
  type string, byte size, and an abstract content identifier (two files
  with the same content id hold the same bytes).
* The browser decode/encode primitives (createImageBitmap, canvas 2d
  context acquisition, canvas.toBlob, Math.sqrt on the involved ratios)
  are an environment oracle Env.  decode and encode are deterministic
  functions of the content id (drawImage paints the decoded content at
  the canvas dimensions, so an encode is a function of the source
  content id and the EncodeParams).  sqrtQ models Math.sqrt as an
  arbitrary rational-valued function; no property of it is assumed.
* A JS Promise outcome is POutcome: resolved, rejected (with the Error
  message), or pending, where pending means the promise never settles
  (e.g. canvas.toBlob delivered a null blob and the callback ignored it).
  timeoutPromise maps pending to a rejection carrying the timeout
  message, and passes settled outcomes through, which is the observable
  behaviour of the race in the source once wall-clock time is abstracted
  away (pending = the wrapped promise never settles on its own).
* Crucially, the source returns `this.timeoutPromise(...)` from inside
  a try block WITHOUT awaiting it, so a rejection of that promise is
  NOT routed through the enclosing catch; the embedding therefore
  returns the POutcome unchanged there instead of converting rejections
  into error results.
* JS numbers on the paths the claims touch are exact decimals combined
  by +, *, /, min, max, floor; they are modelled as rationals.
* The recursion counters (attempt, attemptCount) count upward in the
  source with guards attempt > 10 / attemptCount > 5.  Each function is
  implemented by structural recursion on the remaining budget
  gas = 11 - attempt (resp. 6 - attemptCount), which is equal to the
  source recursion for every starting counter value because in Nat
  arithmetic attempt > 10 iff 11 - attempt = 0 and
  attemptCount > 5 iff 6 - attemptCount = 0.
-/

/-- Observable state of a browser File: name, MIME type, byte length and
an abstract content identifier standing for the byte buffer. -/
structure FileM where
  name : String
  type : String
  size : Nat
  content : Nat
deriving DecidableEq, Repr

/-- Result of canvas.toBlob: byte length plus the content id of the
produced byte buffer. -/
structure Blob where
  size : Nat
  content : Nat
deriving DecidableEq, Repr

/-- Arguments of one canvas encode: canvas dimensions, MIME type handed
to toBlob, and the quality argument (none models passing undefined). -/
structure EncodeParams where
  width : Nat
  height : Nat
  mime : String
  quality : Option ℚ
deriving DecidableEq, Repr

/-- Environment oracle for the browser primitives used by the engine. -/
structure Env where
  /-- createImageBitmap: decoded width and height of a content id, or
  none when decoding rejects. -/
  decode : Nat → Option (Nat × Nat)
  /-- message carried by the decode rejection (environment specific). -/
  decodeErr : String
  /-- whether canvas.getContext succeeds (returns a non-null context). -/
  ctx2d : Bool
  /-- canvas.toBlob on a canvas holding the given source content drawn
  at the given dimensions; none models a null blob. -/
  encode : Nat → EncodeParams → Option Blob
  /-- Math.sqrt on the rational ratios computed by the engine. -/
  sqrtQ : ℚ → ℚ
  /-- whether URL.revokeObjectURL succeeds on a given url (false models
  a throw). -/
  revokeOk : String → Bool

/-- status field of ProcessedImage; the source sets it on every path. -/
inductive Status where
  | success
  | error
deriving DecidableEq, Repr

/-- ProcessedImage record from imageProcessor.ts. -/
structure ProcessedImage where
  url : String
  file : FileM
  width : Nat
  height : Nat
  size : Nat
  status : Status
  error : Option String := none
deriving DecidableEq, Repr

/-- Outcome of a JS promise: resolved, rejected with an Error message,
or pending forever (never settles). -/
inductive POutcome (α : Type) where
  | resolved (a : α)
  | rejected (msg : String)
  | pending
deriving DecidableEq, Repr

/-- format argument of the engine: keep the original format or convert
to WebP. -/
inductive Format where
  | original
  | webp
deriving DecidableEq, Repr

/-- URL.createObjectURL modelled as a non-empty string determined by the
content id of the blob or file. -/
def objectURL (c : Nat) : String := "blob:" ++ toString c

/-- fileName.split(".")[0] ++ ".webp", the WebP renaming in the source. -/
def webpName (n : String) : String := ((n.splitOn ".").headD "") ++ ".webp"

/-- The error-result shape used by every catch block in the source:
empty url, zero dimensions, the caught layer's file argument, and that
file's byte size. -/
def mkError (f : FileM) (msg : String) : ProcessedImage :=
  { url := "", file := f, width := 0, height := 0, size := f.size,
    status := .error, error := some msg }

namespace ImageProcessor

/-- ImageProcessor.timeoutPromise: a settled promise wins the race and
its outcome passes through; a promise that never settles loses to the
timer, which rejects with the timeout message. -/
def timeoutPromise {α : Type} (o : POutcome α) (timeoutMs : Nat) : POutcome α :=
  match o with
  | .pending => .rejected ("操作超时 (" ++ toString (timeoutMs / 1000) ++ "秒)")
  | x => x

/-- ImageProcessor.compressImage.  The try block covers the decode and
the synchronous canvas setup, so those failures resolve with an error
result; but inside the toBlob callback a null blob is ignored
(if (blob) with no else), leaving the promise pending forever. -/
def compressImage (env : Env) (file : FileM) (quality : ℚ) (format : Format) :
    POutcome ProcessedImage :=
  match env.decode file.content with
  | none => .resolved (mkError file env.decodeErr)
  | some (w, h) =>
    if env.ctx2d then
      let mimeType := if format = .webp then "image/webp" else file.type
      let newFileName := if format = .webp then webpName file.name else file.name
      let adjustedQuality : Option ℚ :=
        if mimeType = "image/png" then none else some quality
      match env.encode file.content ⟨w, h, mimeType, adjustedQuality⟩ with
      | some blob =>
        .resolved { url := objectURL blob.content,
                    file := { name := newFileName, type := mimeType,
                              size := blob.size, content := blob.content },
                    width := w, height := h, size := blob.size,
                    status := .success, error := none }
      | none => .pending
    else .resolved (mkError file "Failed to get canvas context")

/-- scale clamping in the resize searches:
scale = Math.max(0.1, Math.min(initialScale, sqrtEstimate)). -/
def computeScale (initialScale sqrtEstimate : ℚ) : ℚ :=
  max (1 / 10) (min initialScale sqrtEstimate)

/-- canvas dimension assignment in the resize searches:
Math.max(1, Math.floor(dim * scale)). -/
def scaledDim (d : Nat) (scale : ℚ) : Nat :=
  max 1 (⌊(d : ℚ) * scale⌋).toNat

/-- ImageProcessor.resizeUntilTargetSize with the remaining retry budget
gas = 6 - attemptCount made structural.  The toBlob callback body runs
inside a try whose catch rejects the inner promise, so a null blob
rejects with the construction-failure message and a rejection of an
awaited recursive call passes through; the whole inner promise is
wrapped in timeoutPromise(_, 20000), and that wrapped promise is
returned from the enclosing try WITHOUT await, so its rejections bypass
the outer catch. -/
def resizeUntilTargetSizeAux (env : Env) (targetSizeKB : ℚ) (format : Format) :
    Nat → FileM → ℚ → POutcome ProcessedImage
  | 0, file, _ =>
    .resolved (mkError file "达到最大尝试次数，无法达到目标大小")
  | gas + 1, file, initialScale =>
    match env.decode file.content with
    | none => .resolved (mkError file env.decodeErr)
    | some (w, h) =>
      let originalSize : ℚ := (file.size : ℚ) / 1024
      if originalSize ≤ targetSizeKB then
        .resolved { url := objectURL file.content, file := file, width := w,
                    height := h, size := file.size, status := .success,
                    error := none }
      else
        let scale := computeScale initialScale
          (env.sqrtQ (targetSizeKB / originalSize))
        if env.ctx2d then
          let cw := scaledDim w scale
          let ch := scaledDim h scale
          let mimeType := if format = .webp then "image/webp" else file.type
          timeoutPromise
            (match env.encode file.content
                ⟨cw, ch, mimeType,
                 some (if format = .webp then 92 / 100 else 85 / 100)⟩ with
             | none => .rejected "创建图片数据失败"
             | some blob =>
               let newFileName :=
                 if format = .webp then webpName file.name else file.name
               let newFile : FileM :=
                 { name := newFileName, type := mimeType, size := blob.size,
                   content := blob.content }
               let newSizeKB : ℚ := (blob.size : ℚ) / 1024
               if targetSizeKB < newSizeKB then
                 let nextScale :=
                   min (9 / 10) (env.sqrtQ (targetSizeKB / newSizeKB))
                 resizeUntilTargetSizeAux env targetSizeKB format gas newFile
                   nextScale
               else if newSizeKB < targetSizeKB * (1 / 2)
                   ∧ 100 < cw ∧ 100 < ch then
                 let upScale :=
                   min (3 / 2) (env.sqrtQ (targetSizeKB / newSizeKB))
                 resizeUntilTargetSizeAux env targetSizeKB format gas file
                   (initialScale * upScale)
               else
                 .resolved { url := objectURL blob.content, file := newFile,
                             width := cw, height := ch, size := blob.size,
                             status := .success, error := none })
            20000
        else .resolved (mkError file "Failed to get canvas context")

/-- ImageProcessor.resizeUntilTargetSize with the source signature. -/
def resizeUntilTargetSize (env : Env) (file : FileM) (targetSizeKB : ℚ)
    (format : Format) (initialScale : ℚ) (attemptCount : Nat) :
    POutcome ProcessedImage :=
  resizeUntilTargetSizeAux env targetSizeKB format (6 - attemptCount) file
    initialScale

/-- ImageProcessor.resizePngUntilTargetSize, gas = 6 - attemptCount.
Differences from resizeUntilTargetSize, both faithful to the source:
the toBlob callback ignores a null blob (if (blob) with no else), so
that path leaves the inner promise pending; and the callback has no
try/catch, so a rejection of the awaited recursive call is an unhandled
rejection of the discarded callback promise and the outer promise never
settles (pending), to be converted by the 20s timeoutPromise. -/
def resizePngUntilTargetSizeAux (env : Env) (targetSizeKB : ℚ) :
    Nat → FileM → ℚ → POutcome ProcessedImage
  | 0, file, _ =>
    .resolved (mkError file "达到最大尝试次数，无法达到目标大小")
  | gas + 1, file, initialScale =>
    match env.decode file.content with
    | none => .resolved (mkError file env.decodeErr)
    | some (w, h) =>
      let originalSize : ℚ := (file.size : ℚ) / 1024
      if originalSize ≤ targetSizeKB then
        .resolved { url := objectURL file.content, file := file, width := w,
                    height := h, size := file.size, status := .success,
                    error := none }
      else
        let scale := computeScale initialScale
          (env.sqrtQ (targetSizeKB / originalSize))
        if env.ctx2d then
          let cw := scaledDim w scale
          let ch := scaledDim h scale
          timeoutPromise
            (match env.encode file.content ⟨cw, ch, "image/png", none⟩ with
             | none => .pending
             | some blob =>
               let newFile : FileM :=
                 { name := file.name, type := "image/png", size := blob.size,
                   content := blob.content }
               let newSizeKB : ℚ := (blob.size : ℚ) / 1024
               if targetSizeKB < newSizeKB then
                 let nextScale :=
                   min (9 / 10) (env.sqrtQ (targetSizeKB / newSizeKB))
                 match resizePngUntilTargetSizeAux env targetSizeKB gas newFile
                     nextScale with
                 | .resolved r => .resolved r
                 | _ => .pending
               else
                 .resolved { url := objectURL blob.content, file := newFile,
                             width := cw, height := ch, size := blob.size,
                             status := .success, error := none })
            20000
        else .resolved (mkError file "Failed to get canvas context")

/-- ImageProcessor.resizePngUntilTargetSize with the source signature. -/
def resizePngUntilTargetSize (env : Env) (file : FileM) (targetSizeKB : ℚ)
    (initialScale : ℚ) (attemptCount : Nat) : POutcome ProcessedImage :=
  resizePngUntilTargetSizeAux env targetSizeKB (6 - attemptCount) file
    initialScale

/-- ImageProcessor.recursiveCompression, gas = 11 - attempt, with the
source attempt counter threaded through for the attempt === 0 test.
recursiveCompression has no try/catch, so the outcome of the awaited
compressImage and of the delegated resize pass through. -/
def recursiveCompressionAux (env : Env) (targetSizeKB : ℚ) (format : Format) :
    Nat → FileM → ℚ → Nat → POutcome ProcessedImage
  | 0, file, _, _ =>
    resizeUntilTargetSize env file targetSizeKB format (9 / 10) 0
  | gas + 1, file, quality, attempt =>
    match compressImage env file quality format with
    | .rejected e => .rejected e
    | .pending => .pending
    | .resolved result =>
      let resultSizeKB : ℚ := (result.size : ℚ) / 1024
      if resultSizeKB ≤ targetSizeKB then
        if resultSizeKB < targetSizeKB * (1 / 2) ∧ quality < 95 / 100 then
          recursiveCompressionAux env targetSizeKB format gas file
            (min (99 / 100) (quality * (3 / 2))) (attempt + 1)
        else .resolved result
      else
        let newQuality : ℚ :=
          if attempt = 0 then
            let nq := max (1 / 2) (quality * (targetSizeKB / resultSizeKB))
            if format = .webp then max (3 / 4) nq else nq
          else
            max (if format = .webp then 3 / 5 else 3 / 10)
              (quality * (17 / 20))
        recursiveCompressionAux env targetSizeKB format gas file newQuality
          (attempt + 1)

/-- ImageProcessor.recursiveCompression with the source signature. -/
def recursiveCompression (env : Env) (file : FileM) (targetSizeKB : ℚ)
    (format : Format) (quality : ℚ) (attempt : Nat) :
    POutcome ProcessedImage :=
  recursiveCompressionAux env targetSizeKB format (11 - attempt) file quality
    attempt

/-- The route taken by compressToTargetSize, read off its if cascade:
direct fit when the file already satisfies the budget, the PNG resize
search for image/png kept in the original format, and the quality
search (recursiveCompression) for everything else, GIF included. -/
inductive Route where
  | directFit
  | pngResize
  | qualitySearch
deriving DecidableEq, Repr

/-- Dispatch of ImageProcessor.compressToTargetSize. -/
def chooseRoute (file : FileM) (targetSizeKB : ℚ) (format : Format) : Route :=
  if (file.size : ℚ) ≤ targetSizeKB * 1024 then .directFit
  else if file.type = "image/png" ∧ format = .original then .pngResize
  else .qualitySearch

/-- ImageProcessor.compressToTargetSize.  The try covers the awaited
direct-fit decode, whose failure resolves with an error result carrying
the original file; on the other routes the timeoutPromise-wrapped
search promise is returned WITHOUT await, so its rejections bypass the
catch and the outcome passes through unchanged. -/
def compressToTargetSize (env : Env) (file : FileM) (targetSizeKB : ℚ)
    (format : Format) : POutcome ProcessedImage :=
  match chooseRoute file targetSizeKB format with
  | .directFit =>
    match env.decode file.content with
    | none => .resolved (mkError file env.decodeErr)
    | some (w, h) =>
      .resolved { url := objectURL file.content, file := file, width := w,
                  height := h, size := file.size, status := .success,
                  error := none }
  | .pngResize =>
    timeoutPromise (resizePngUntilTargetSize env file targetSizeKB (9 / 10) 0)
      60000
  | .qualitySearch =>
    timeoutPromise
      (recursiveCompression env file targetSizeKB format
        (if format = .webp then 95 / 100 else 7 / 10) 0)
      60000

/-- ImageProcessor.cancelCompression: first component is the overall
outcome (ok means no exception escapes), second lists the urls passed
to URL.revokeObjectURL. -/
def cancelCompression (env : Env) (processedImage : ProcessedImage) :
    Except String Unit × List String :=
  if processedImage.url = "" then (.ok (), [])
  else
    match (if env.revokeOk processedImage.url then Except.ok ()
           else Except.error "释放URL资源失败" : Except String Unit) with
    | .ok _ => (.ok (), [processedImage.url])
    | .error _ => (.ok (), [processedImage.url])

/-- Instrumentation: number of compressImage calls (encode attempts)
performed by recursiveCompression, mirroring recursiveCompressionAux
branch for branch. -/
def recursiveCompressionCallsAux (env : Env) (targetSizeKB : ℚ)
    (format : Format) : Nat → FileM → ℚ → Nat → Nat
  | 0, _, _, _ => 0
  | gas + 1, file, quality, attempt =>
    match compressImage env file quality format with
    | .rejected _ => 1
    | .pending => 1
    | .resolved result =>
      let resultSizeKB : ℚ := (result.size : ℚ) / 1024
      if resultSizeKB ≤ targetSizeKB then
        if resultSizeKB < targetSizeKB * (1 / 2) ∧ quality < 95 / 100 then
          1 + recursiveCompressionCallsAux env targetSizeKB format gas file
            (min (99 / 100) (quality * (3 / 2))) (attempt + 1)
        else 1
      else
        let newQuality : ℚ :=
          if attempt = 0 then
            let nq := max (1 / 2) (quality * (targetSizeKB / resultSizeKB))
            if format = .webp then max (3 / 4) nq else nq
          else
            max (if format = .webp then 3 / 5 else 3 / 10)
              (quality * (17 / 20))
        1 + recursiveCompressionCallsAux env targetSizeKB format gas file
          newQuality (attempt + 1)

/-- Number of compressImage calls made by recursiveCompression when
started at the given attempt counter. -/
def recursiveCompressionCalls (env : Env) (file : FileM) (targetSizeKB : ℚ)
    (format : Format) (quality : ℚ) (attempt : Nat) : Nat :=
  recursiveCompressionCallsAux env targetSizeKB format (11 - attempt) file
    quality attempt

/-- Instrumentation: byte sizes of the encode candidates produced by
resizeUntilTargetSize (each successful toBlob result), mirroring
resizeUntilTargetSizeAux branch for branch. -/
def resizeCandSizesAux (env : Env) (targetSizeKB : ℚ) (format : Format) :
    Nat → FileM → ℚ → List Nat
  | 0, _, _ => []
  | gas + 1, file, initialScale =>
    match env.decode file.content with
    | none => []
    | some (w, h) =>
      let originalSize : ℚ := (file.size : ℚ) / 1024
      if originalSize ≤ targetSizeKB then []
      else
        let scale := computeScale initialScale
          (env.sqrtQ (targetSizeKB / originalSize))
        if env.ctx2d then
          let cw := scaledDim w scale
          let ch := scaledDim h scale
          let mimeType := if format = .webp then "image/webp" else file.type
          match env.encode file.content
              ⟨cw, ch, mimeType,
               some (if format = .webp then 92 / 100 else 85 / 100)⟩ with
          | none => []
          | some blob =>
            let newFileName :=
              if format = .webp then webpName file.name else file.name
            let newFile : FileM :=
              { name := newFileName, type := mimeType, size := blob.size,
                content := blob.content }
            let newSizeKB : ℚ := (blob.size : ℚ) / 1024
            if targetSizeKB < newSizeKB then
              blob.size :: resizeCandSizesAux env targetSizeKB format gas
                newFile (min (9 / 10) (env.sqrtQ (targetSizeKB / newSizeKB)))
            else if newSizeKB < targetSizeKB * (1 / 2)
                ∧ 100 < cw ∧ 100 < ch then
              blob.size :: resizeCandSizesAux env targetSizeKB format gas file
                (initialScale * min (3 / 2) (env.sqrtQ (targetSizeKB / newSizeKB)))
            else [blob.size]
        else []

/-- Candidate sizes produced by resizeUntilTargetSize when started at
the given attempt counter. -/
def resizeCandSizes (env : Env) (file : FileM) (targetSizeKB : ℚ)
    (format : Format) (initialScale : ℚ) (attemptCount : Nat) : List Nat :=
  resizeCandSizesAux env targetSizeKB format (6 - attemptCount) file
    initialScale

/-! Concrete fixtures for counterexamples and witnesses. -/

/-- Environment where decoding succeeds at 4000 by 3000 but every
canvas.toBlob call delivers a null blob. -/
def envNullBlob : Env :=
  { decode := fun _ => some (4000, 3000), decodeErr := "decode rejected",
    ctx2d := true, encode := fun _ _ => none, sqrtQ := fun _ => 1 / 2,
    revokeOk := fun _ => true }

/-- Environment where full-resolution encodes are 500KB while any
downscaled encode is 1KB. -/
def envSplit : Env :=
  { decode := fun _ => some (4000, 3000), decodeErr := "decode rejected",
    ctx2d := true,
    encode := fun _ p =>
      if 4000 ≤ p.width then some ⟨512000, 9⟩ else some ⟨1024, 1⟩,
    sqrtQ := fun _ => 1 / 2, revokeOk := fun _ => true }

/-- Environment where every encode yields a fresh 200KB blob whose
content id is the source content id plus one. -/
def envBigBlob : Env :=
  { decode := fun _ => some (4000, 3000), decodeErr := "decode rejected",
    ctx2d := true, encode := fun c _ => some ⟨204800, c + 1⟩,
    sqrtQ := fun _ => 1 / 2, revokeOk := fun _ => true }

/-- Environment where decoding always rejects. -/
def envNoDecode : Env :=
  { decode := fun _ => none, decodeErr := "decode rejected",
    ctx2d := true, encode := fun _ _ => none, sqrtQ := fun _ => 1 / 2,
    revokeOk := fun _ => true }

/-- A 300KB PNG source. -/
def filePng : FileM :=
  { name := "photo.png", type := "image/png", size := 307200, content := 0 }

/-- A 300KB JPEG source. -/
def fileJpg : FileM :=
  { name := "photo.jpg", type := "image/jpeg", size := 307200, content := 0 }

/-- A 300KB GIF source. -/
def fileGif : FileM :=
  { name := "anim.gif", type := "image/gif", size := 307200, content := 0 }

/-- A 50KB JPEG source, under a 200KB budget. -/
def fileSmall : FileM :=
  { name := "small.jpg", type := "image/jpeg", size := 51200, content := 0 }

/-- The intermediate resized file reached after six envBigBlob resize
steps starting from fileJpg. -/
def fileJpgResized6 : FileM :=
  { name := "photo.jpg", type := "image/jpeg", size := 204800, content := 6 }

end ImageProcessor

/-! Helper lemmas shared by the claim theorems. -/

namespace ImageProcessor

theorem timeoutPromise_resolved {α : Type} {o : POutcome α} {ms : Nat} {r : α}
    (h : timeoutPromise o ms = .resolved r) : o = .resolved r := by
  cases o with
  | resolved a => exact h
  | rejected m => exact absurd h (by simp [timeoutPromise])
  | pending => exact absurd h (by simp [timeoutPromise])

theorem div1024_le {n : Nat} {t : ℚ} (h : (n : ℚ) / 1024 ≤ t) :
    (n : ℚ) ≤ t * 1024 :=
  (div_le_iff₀ (by norm_num)).mp h

theorem resizeAux_success_le (env : Env) (t : ℚ) (fmt : Format) :
    ∀ gas f s r,
      resizeUntilTargetSizeAux env t fmt gas f s = .resolved r →
      r.status = .success → (r.size : ℚ) ≤ t * 1024 := by
  intro gas
  induction gas with
  | zero =>
    intro f s r h hs
    simp only [resizeUntilTargetSizeAux, POutcome.resolved.injEq] at h
    rw [← h] at hs
    simp [mkError] at hs
  | succ gas ih =>
    intro f s r h hs
    simp only [resizeUntilTargetSizeAux] at h
    split at h
    · simp only [POutcome.resolved.injEq] at h
      rw [← h] at hs
      simp [mkError] at hs
    · split at h
      · rename_i hle
        simp only [POutcome.resolved.injEq] at h
        rw [← h] at hs ⊢
        exact div1024_le hle
      · split at h
        · have h2 := timeoutPromise_resolved h
          split at h2
          · exact absurd h2 (by simp)
          · split at h2
            · exact ih _ _ _ h2 hs
            · split at h2
              · exact ih _ _ _ h2 hs
              · rename_i hnlt _
                simp only [POutcome.resolved.injEq] at h2
                rw [← h2] at hs ⊢
                exact div1024_le (not_lt.mp hnlt)
        · simp only [POutcome.resolved.injEq] at h
          rw [← h] at hs
          simp [mkError] at hs

theorem resizePngAux_success_le (env : Env) (t : ℚ) :
    ∀ gas f s r,
      resizePngUntilTargetSizeAux env t gas f s = .resolved r →
      r.status = .success → (r.size : ℚ) ≤ t * 1024 := by
  intro gas
  induction gas with
  | zero =>
    intro f s r h hs
    simp only [resizePngUntilTargetSizeAux, POutcome.resolved.injEq] at h
    rw [← h] at hs
    simp [mkError] at hs
  | succ gas ih =>
    intro f s r h hs
    simp only [resizePngUntilTargetSizeAux] at h
    split at h
    · simp only [POutcome.resolved.injEq] at h
      rw [← h] at hs
      simp [mkError] at hs
    · split at h
      · rename_i hle
        simp only [POutcome.resolved.injEq] at h
        rw [← h] at hs ⊢
        exact div1024_le hle
      · split at h
        · have h2 := timeoutPromise_resolved h
          split at h2
          · exact absurd h2 (by simp)
          · split at h2
            · split at h2
              · rename_i heq
                simp only [POutcome.resolved.injEq] at h2
                rw [← h2] at hs ⊢
                exact ih _ _ _ heq hs
              · exact absurd h2 (by simp)
            · rename_i hnlt
              simp only [POutcome.resolved.injEq] at h2
              rw [← h2] at hs ⊢
              exact div1024_le (not_lt.mp hnlt)
        · simp only [POutcome.resolved.injEq] at h
          rw [← h] at hs
          simp [mkError] at hs

theorem recursiveAux_success_le (env : Env) (t : ℚ) (fmt : Format) :
    ∀ gas f q a r,
      recursiveCompressionAux env t fmt gas f q a = .resolved r →
      r.status = .success → (r.size : ℚ) ≤ t * 1024 := by
  intro gas
  induction gas with
  | zero =>
    intro f q a r h hs
    simp only [recursiveCompressionAux, resizeUntilTargetSize] at h
    exact resizeAux_success_le env t fmt _ _ _ _ h hs
  | succ gas ih =>
    intro f q a r h hs
    simp only [recursiveCompressionAux] at h
    split at h
    · exact absurd h (by simp)
    · exact absurd h (by simp)
    · split at h
      · rename_i hle
        split at h
        · exact ih _ _ _ _ h hs
        · simp only [POutcome.resolved.injEq] at h
          rw [← h] at hs ⊢
          exact div1024_le hle
      · exact ih _ _ _ _ h hs

end ImageProcessor

namespace ImageProcessor

/-- Error results of compressImage carry the unmodified input file. -/
theorem compressImage_error_inv (env : Env) (f : FileM) (q : ℚ)
    (fmt : Format) (r : ProcessedImage)
    (h : compressImage env f q fmt = .resolved r) (hs : r.status = .error) :
    r.url = "" ∧ r.width = 0 ∧ r.height = 0 ∧ r.file = f ∧ r.size = f.size := by
  simp only [compressImage] at h
  split at h
  · simp only [POutcome.resolved.injEq] at h
    rw [← h]
    simp [mkError]
  · split at h
    · split at h
      · simp only [POutcome.resolved.injEq] at h
        rw [← h] at hs
        simp at hs
      · exact absurd h (by simp)
    · simp only [POutcome.resolved.injEq] at h
      rw [← h]
      simp [mkError]

theorem resizeAux_error_inv (env : Env) (t : ℚ) (fmt : Format) :
    ∀ gas f s r,
      resizeUntilTargetSizeAux env t fmt gas f s = .resolved r →
      r.status = .error →
      r.url = "" ∧ r.width = 0 ∧ r.height = 0 ∧ r.size = r.file.size := by
  intro gas
  induction gas with
  | zero =>
    intro f s r h hs
    simp only [resizeUntilTargetSizeAux, POutcome.resolved.injEq] at h
    rw [← h]
    simp [mkError]
  | succ gas ih =>
    intro f s r h hs
    simp only [resizeUntilTargetSizeAux] at h
    split at h
    · simp only [POutcome.resolved.injEq] at h
      rw [← h]
      simp [mkError]
    · split at h
      · simp only [POutcome.resolved.injEq] at h
        rw [← h] at hs
        simp at hs
      · split at h
        · have h2 := timeoutPromise_resolved h
          split at h2
          · exact absurd h2 (by simp)
          · split at h2
            · exact ih _ _ _ h2 hs
            · split at h2
              · exact ih _ _ _ h2 hs
              · simp only [POutcome.resolved.injEq] at h2
                rw [← h2] at hs
                simp at hs
        · simp only [POutcome.resolved.injEq] at h
          rw [← h]
          simp [mkError]

theorem resizePngAux_error_inv (env : Env) (t : ℚ) :
    ∀ gas f s r,
      resizePngUntilTargetSizeAux env t gas f s = .resolved r →
      r.status = .error →
      r.url = "" ∧ r.width = 0 ∧ r.height = 0 ∧ r.size = r.file.size := by
  intro gas
  induction gas with
  | zero =>
    intro f s r h hs
    simp only [resizePngUntilTargetSizeAux, POutcome.resolved.injEq] at h
    rw [← h]
    simp [mkError]
  | succ gas ih =>
    intro f s r h hs
    simp only [resizePngUntilTargetSizeAux] at h
    split at h
    · simp only [POutcome.resolved.injEq] at h
      rw [← h]
      simp [mkError]
    · split at h
      · simp only [POutcome.resolved.injEq] at h
        rw [← h] at hs
        simp at hs
      · split at h
        · have h2 := timeoutPromise_resolved h
          split at h2
          · exact absurd h2 (by simp)
          · split at h2
            · split at h2
              · rename_i heq
                simp only [POutcome.resolved.injEq] at h2
                rw [← h2] at hs ⊢
                exact ih _ _ _ heq hs
              · exact absurd h2 (by simp)
            · simp only [POutcome.resolved.injEq] at h2
              rw [← h2] at hs
              simp at hs
        · simp only [POutcome.resolved.injEq] at h
          rw [← h]
          simp [mkError]

theorem recursiveAux_error_inv (env : Env) (t : ℚ) (fmt : Format) :
    ∀ gas f q a r,
      recursiveCompressionAux env t fmt gas f q a = .resolved r →
      r.status = .error →
      r.url = "" ∧ r.width = 0 ∧ r.height = 0 ∧ r.size = r.file.size := by
  intro gas
  induction gas with
  | zero =>
    intro f q a r h hs
    simp only [recursiveCompressionAux, resizeUntilTargetSize] at h
    exact resizeAux_error_inv env t fmt _ _ _ _ h hs
  | succ gas ih =>
    intro f q a r h hs
    simp only [recursiveCompressionAux] at h
    split at h
    · exact absurd h (by simp)
    · exact absurd h (by simp)
    · rename_i result hci
      split at h
      · split at h
        · exact ih _ _ _ _ h hs
        · simp only [POutcome.resolved.injEq] at h
          rw [← h] at hs ⊢
          have := compressImage_error_inv env f q fmt result hci hs
          exact ⟨this.1, this.2.1, this.2.2.1, by rw [this.2.2.2.2, this.2.2.2.1]⟩
      · exact ih _ _ _ _ h hs

end ImageProcessor

/-! Claim theorems. -/

namespace ImageProcessor

/-- C1: refuted as stated (code bug).  With a decodable 300KB PNG, a
1KB... actually a 10KB target and an encoder whose toBlob yields a null
blob, the promise returned by compressToTargetSize REJECTS with the
timeout Error instead of resolving with a status = error
ProcessedImage: the timeoutPromise result is returned from the try
block without await, so the enclosing catch never converts the
rejection. -/
theorem claim1_timeout_rejection :
    compressToTargetSize envNullBlob filePng 10 .original
      = .rejected "操作超时 (20秒)" := by
  decide

/-- C2: confirmed, in the strong form: every resolved result of
compressToTargetSize with status success has size at most
targetSizeKB * 1024 bytes; the engine has no over-budget success path
at all, so the Exhausted closest-effort exception never occurs. -/
theorem claim2_budget_monotonicity :
    ∀ (env : Env) (f : FileM) (t : ℚ) (fmt : Format) (r : ProcessedImage),
      compressToTargetSize env f t fmt = .resolved r →
      r.status = .success → (r.size : ℚ) ≤ t * 1024 := by
  intro env f t fmt r h hs
  simp only [compressToTargetSize] at h
  split at h
  · rename_i hroute
    split at h
    · simp only [POutcome.resolved.injEq] at h
      rw [← h] at hs
      simp [mkError] at hs
    · simp only [POutcome.resolved.injEq] at h
      rw [← h] at hs ⊢
      simp only [chooseRoute] at hroute
      split at hroute
      · rename_i hle
        exact hle
      · split at hroute <;> exact absurd hroute (by simp)
  · have h2 := timeoutPromise_resolved h
    simp only [resizePngUntilTargetSize] at h2
    exact resizePngAux_success_le env t _ _ _ _ h2 hs
  · have h2 := timeoutPromise_resolved h
    simp only [recursiveCompression] at h2
    exact recursiveAux_success_le env t fmt _ _ _ _ _ h2 hs

/-- C2 witness: a 50KB JPEG against a 200KB budget resolves with a
success result of 51200 bytes, which is at most 204800. -/
theorem claim2_witness : ((51200 : Nat) : ℚ) ≤ 200 * 1024 :=
  claim2_budget_monotonicity envSplit fileSmall 200 .original
    { url := objectURL 0, file := fileSmall, width := 4000, height := 3000,
      size := 51200, status := .success, error := none }
    (by decide) rfl

/-- C3: confirmed.  Whenever the source decodes to some dimensions and
its byte length is at most targetSizeKB * 1024, compressToTargetSize
resolves with a success result wrapping the original file itself (same
bytes, no re-encode), size equal to the source byte length, and the
decoded dimensions. -/
theorem claim3_direct_fit :
    ∀ (env : Env) (f : FileM) (t : ℚ) (fmt : Format) (w h : Nat),
      env.decode f.content = some (w, h) →
      (f.size : ℚ) ≤ t * 1024 →
      compressToTargetSize env f t fmt
        = .resolved { url := objectURL f.content, file := f, width := w,
                      height := h, size := f.size, status := .success,
                      error := none } := by
  intro env f t fmt w h hdec hsize
  simp only [compressToTargetSize, chooseRoute, if_pos hsize, hdec]

/-- C3 witness: the 50KB JPEG under a 200KB budget is returned as-is. -/
theorem claim3_witness :
    compressToTargetSize envSplit fileSmall 200 .original
      = .resolved { url := objectURL fileSmall.content, file := fileSmall,
                    width := 4000, height := 3000, size := fileSmall.size,
                    status := .success, error := none } :=
  claim3_direct_fit envSplit fileSmall 200 .original 4000 3000 rfl
    (by norm_num [fileSmall])

/-- C4 counterexample: a 300KB GIF with format original and a 10KB
budget is dispatched to the quality search (recursiveCompression), not
to the resolution search, refuting the claim that every lossless input
format (PNG and GIF) skips Quality Search. -/
theorem claim4_counterexample :
    chooseRoute fileGif 10 .original = .qualitySearch ∧
      chooseRoute fileGif 10 .original ≠ .pngResize := by
  decide

/-- C4 amended: only PNG sources under the keep-original-format option
skip Quality Search and go straight to Resolution Search; over-budget
GIF sources are dispatched to the quality-parameter search like JPEG
and WebP. -/
theorem claim4_amended :
    (∀ (f : FileM) (t : ℚ), f.type = "image/png" → t * 1024 < (f.size : ℚ) →
        chooseRoute f t .original = .pngResize) ∧
    (∀ (f : FileM) (t : ℚ), f.type = "image/gif" → t * 1024 < (f.size : ℚ) →
        chooseRoute f t .original = .qualitySearch) := by
  constructor
  · intro f t hpng hsz
    simp only [chooseRoute, if_neg (not_le.mpr hsz)]
    rw [if_pos ⟨hpng, trivial⟩]
  · intro f t hgif hsz
    simp only [chooseRoute, if_neg (not_le.mpr hsz)]
    rw [if_neg]
    rintro ⟨h1, -⟩
    rw [hgif] at h1
    exact absurd h1 (by decide)

/-- C4 witness: the amended routing evaluated on a 300KB PNG and a
300KB GIF against a 10KB budget. -/
theorem claim4_witness :
    chooseRoute filePng 10 .original = .pngResize ∧
    chooseRoute fileGif 10 .original = .qualitySearch :=
  ⟨claim4_amended.1 filePng 10 rfl (by norm_num [filePng]),
   claim4_amended.2 fileGif 10 rfl (by norm_num [fileGif])⟩

/-- C5 counterexample: in an environment where every downscaled encode
is a valid 1KB candidate (well under the 10KB budget), the resolution
search discards each candidate through its undershoot branch, exhausts
its retry bound, and returns a FAILURE rather than its closest (or any)
attempt, even though valid under-budget candidates were produced. -/
theorem claim5_counterexample :
    resizeUntilTargetSize envSplit fileJpg 10 .original (9 / 10) 0
        = .resolved (mkError fileJpg "达到最大尝试次数，无法达到目标大小")
      ∧ resizeCandSizes envSplit fileJpg 10 .original (9 / 10) 0 ≠ []
      ∧ ∀ s ∈ resizeCandSizes envSplit fileJpg 10 .original (9 / 10) 0,
          (s : ℚ) ≤ 10 * 1024 := by
  decide

/-- C5 amended: when the bounded retries complete without meeting the
target size, the engine always returns an Exhausted-classified failure
result, regardless of whether valid under-budget candidates were
produced along the way; it never returns a closest-attempt result. -/
theorem claim5_amended :
    ∀ (env : Env) (f : FileM) (t : ℚ) (fmt : Format) (s : ℚ) (a : Nat),
      5 < a →
      resizeUntilTargetSize env f t fmt s a
        = .resolved (mkError f "达到最大尝试次数，无法达到目标大小") := by
  intro env f t fmt s a ha
  unfold resizeUntilTargetSize
  rw [Nat.sub_eq_zero_of_le (by omega)]
  rfl

/-- C5 witness: the exhaustion failure evaluated at attempt counter 6. -/
theorem claim5_witness :
    resizeUntilTargetSize envSplit fileJpg 10 .original (9 / 10) 6
      = .resolved (mkError fileJpg "达到最大尝试次数，无法达到目标大小") :=
  claim5_amended envSplit fileJpg 10 .original (9 / 10) 6 (by omega)

/-- C6: refuted as stated (code bug).  When canvas.toBlob delivers a
null blob, compressImage leaves its promise unresolved forever (the
callback ignores the null blob), and resizePngUntilTargetSize likewise
never settles on its own, surfacing only as a 20-second timeout
REJECTION rather than as a Failure ProcessedImage. -/
theorem claim6_null_blob_unhandled :
    compressImage envNullBlob fileJpg (7 / 10) .original = .pending ∧
    resizePngUntilTargetSize envNullBlob filePng 10 (9 / 10) 0
      = .rejected "操作超时 (20秒)" := by
  decide

/-- C7 counterexample: in an environment where every encode overshoots
the 10KB budget, the quality search performs 11 encode attempts
(attempt counter values 0 through 10), refuting the claimed bound of at
most 10. -/
theorem claim7_counterexample :
    recursiveCompressionCalls envBigBlob fileJpg 10 .original (7 / 10) 0 = 11
      ∧ ¬ recursiveCompressionCalls envBigBlob fileJpg 10 .original
            (7 / 10) 0 ≤ 10 := by
  decide

/-- Encode attempts are bounded by the remaining budget. -/
theorem callsAux_le (env : Env) (t : ℚ) (fmt : Format) :
    ∀ gas f q a, recursiveCompressionCallsAux env t fmt gas f q a ≤ gas := by
  intro gas
  induction gas with
  | zero => intro f q a; exact Nat.le_refl 0
  | succ gas ih =>
    intro f q a
    simp only [recursiveCompressionCallsAux]
    split
    · omega
    · omega
    · split
      · split
        · exact le_trans (Nat.add_le_add_left (ih _ _ _) 1) (by omega)
        · omega
      · exact le_trans (Nat.add_le_add_left (ih _ _ _) 1) (by omega)

/-- C7 amended: the quality search performs at most 11 encode attempts
(attempt counter 0 through 10), and once the attempt counter exceeds
10 it delegates to the resolution search instead of returning an
over-budget result. -/
theorem claim7_amended :
    (∀ (env : Env) (f : FileM) (t : ℚ) (fmt : Format) (q : ℚ) (a : Nat),
        recursiveCompressionCalls env f t fmt q a ≤ 11) ∧
    (∀ (env : Env) (f : FileM) (t : ℚ) (fmt : Format) (q : ℚ) (a : Nat),
        10 < a →
        recursiveCompression env f t fmt q a
          = resizeUntilTargetSize env f t fmt (9 / 10) 0) := by
  constructor
  · intro env f t fmt q a
    exact le_trans (callsAux_le env t fmt _ f q a) (by omega)
  · intro env f t fmt q a ha
    unfold recursiveCompression
    rw [Nat.sub_eq_zero_of_le (by omega)]
    rfl

/-- C7 witness: the bound and the delegation evaluated concretely. -/
theorem claim7_witness :
    recursiveCompressionCalls envSplit fileJpg 10 .original (7 / 10) 0 ≤ 11 ∧
    recursiveCompression envSplit fileJpg 10 .original (7 / 10) 11
      = resizeUntilTargetSize envSplit fileJpg 10 .original (9 / 10) 0 :=
  ⟨claim7_amended.1 envSplit fileJpg 10 .original (7 / 10) 0,
   claim7_amended.2 envSplit fileJpg 10 .original (7 / 10) 11 (by omega)⟩

/-- C8: confirmed.  The clamped scale of every resolution-search step is
at least 1/10, and both canvas dimensions computed from it are at least
1, for every initial scale, sqrt estimate and source dimension. -/
theorem claim8_dimension_floor :
    ∀ (initialScale sqrtEstimate : ℚ) (w h : Nat),
      1 / 10 ≤ computeScale initialScale sqrtEstimate ∧
      1 ≤ scaledDim w (computeScale initialScale sqrtEstimate) ∧
      1 ≤ scaledDim h (computeScale initialScale sqrtEstimate) := by
  intro s e w h
  exact ⟨le_max_left _ _, le_max_left _ _, le_max_left _ _⟩

/-- C9 counterexample: with encodes that stay over budget, the resize
recursion fails after exhausting its retries while holding the LATEST
INTERMEDIATE resized file, so the error result of compressToTargetSize
carries that intermediate file and its 204800-byte size, not the
original input file and its 307200-byte length. -/
theorem claim9_counterexample :
    compressToTargetSize envBigBlob fileJpg 10 .original
        = .resolved (mkError fileJpgResized6 "达到最大尝试次数，无法达到目标大小")
      ∧ fileJpgResized6.size ≠ fileJpg.size
      ∧ fileJpgResized6 ≠ fileJpg := by
  decide

/-- C9 amended: every error result of compressToTargetSize has empty
url, zero width and height, and a size equal to the byte length of the
file recorded in the result, where that file is the file argument of
the layer that failed — for recursive resolution-search retries the
latest intermediate resized file rather than the original input; for
compressImage the recorded file is the unmodified original input. -/
theorem claim9_amended :
    (∀ (env : Env) (f : FileM) (t : ℚ) (fmt : Format) (r : ProcessedImage),
        compressToTargetSize env f t fmt = .resolved r →
        r.status = .error →
        r.url = "" ∧ r.width = 0 ∧ r.height = 0 ∧ r.size = r.file.size) ∧
    (∀ (env : Env) (f : FileM) (q : ℚ) (fmt : Format) (r : ProcessedImage),
        compressImage env f q fmt = .resolved r →
        r.status = .error →
        r.url = "" ∧ r.width = 0 ∧ r.height = 0 ∧ r.file = f
          ∧ r.size = f.size) := by
  constructor
  · intro env f t fmt r h hs
    simp only [compressToTargetSize] at h
    split at h
    · split at h
      · simp only [POutcome.resolved.injEq] at h
        rw [← h]
        simp [mkError]
      · simp only [POutcome.resolved.injEq] at h
        rw [← h] at hs
        simp at hs
    · have h2 := timeoutPromise_resolved h
      simp only [resizePngUntilTargetSize] at h2
      exact resizePngAux_error_inv env t _ _ _ _ h2 hs
    · have h2 := timeoutPromise_resolved h
      simp only [recursiveCompression] at h2
      exact recursiveAux_error_inv env t fmt _ _ _ _ _ h2 hs
  · exact fun env f q fmt r h hs => compressImage_error_inv env f q fmt r h hs

/-- C9 witness: the invariant evaluated on the exhaustion failure of the
over-budget environment and on a compressImage decode failure. -/
theorem claim9_witness :
    ((mkError fileJpgResized6 "达到最大尝试次数，无法达到目标大小").url = ""
      ∧ (mkError fileJpgResized6 "达到最大尝试次数，无法达到目标大小").width = 0
      ∧ (mkError fileJpgResized6 "达到最大尝试次数，无法达到目标大小").height = 0
      ∧ (mkError fileJpgResized6 "达到最大尝试次数，无法达到目标大小").size
          = (mkError fileJpgResized6 "达到最大尝试次数，无法达到目标大小").file.size) ∧
    ((mkError fileJpg "decode rejected").url = ""
      ∧ (mkError fileJpg "decode rejected").width = 0
      ∧ (mkError fileJpg "decode rejected").height = 0
      ∧ (mkError fileJpg "decode rejected").file = fileJpg
      ∧ (mkError fileJpg "decode rejected").size = fileJpg.size) :=
  ⟨claim9_amended.1 envBigBlob fileJpg 10 .original _
      (by decide) rfl,
   claim9_amended.2 envNoDecode fileJpg (7 / 10) .original _ rfl rfl⟩

/-- C10: confirmed.  cancelCompression never lets an exception escape,
and performs no revocation when the url is empty. -/
theorem claim10_cancel_safe :
    ∀ (env : Env) (p : ProcessedImage),
      (cancelCompression env p).1 = Except.ok () ∧
      (p.url = "" → (cancelCompression env p).2 = []) := by
  intro env p
  constructor
  · simp only [cancelCompression]
    split
    · rfl
    · split <;> rfl
  · intro hp
    simp [cancelCompression, hp]

/-- C10 witness: evaluated on an error result, whose url is empty. -/
theorem claim10_witness :
    (cancelCompression envNullBlob (mkError fileJpg "x")).1 = Except.ok () ∧
    (cancelCompression envNullBlob (mkError fileJpg "x")).2 = [] :=
  ⟨(claim10_cancel_safe envNullBlob (mkError fileJpg "x")).1,
   (claim10_cancel_safe envNullBlob (mkError fileJpg "x")).2 rfl⟩

end ImageProcessor
